import Mathlib

/-!
# Verification of the `moflow` MODFLOW input-decoding engine

Shallow embedding of the input decoding engine of the `moflow` repository:
the record cursor, field tokenizer/converter, array-block decoder
(`src/moflow/mf/reader.py`), the boolean token converter
(`src/moflow/io/textfile.py`), and the manifest unit registry
(`src/moflow/mf/name.py`).

Python strings are modelled as Lean `String`s (the inputs are ASCII text
lines); Python `int` as `Int`; numeric array elements as `Rat`
(`numpy` float rounding is not relevant to any statement proved here).
Methods that mutate the reader are modelled by explicit state passing on a
`Reader` structure; raised exceptions are modelled with `Except`, carrying
the reader state at raise time where the source relies on it.
-/

namespace Moflow

/-! ## String primitives (Python semantics) -/

/-- Helper for `splitWs`: `cur` holds the (reversed) current token. -/
def splitWsAux : List Char → List Char → List String
  | [], cur => if cur = [] then [] else [cur.reverse.asString]
  | c :: rest, cur =>
    if c.isWhitespace then
      if cur = [] then splitWsAux rest []
      else cur.reverse.asString :: splitWsAux rest []
    else splitWsAux rest (c :: cur)

/-- Python `str.split()` (no argument): split on runs of whitespace,
discarding empty fields. -/
def splitWs (s : String) : List String :=
  splitWsAux s.toList []

/-- Python `str.strip()`: remove leading and trailing whitespace. -/
def pyStrip (s : String) : String :=
  ((s.toList.dropWhile Char.isWhitespace).reverse.dropWhile
    Char.isWhitespace).reverse.asString

/-- Python `str.upper()` on the ASCII text handled by this engine. -/
def pyUpper (s : String) : String :=
  (s.toList.map Char.toUpper).asString

/-- Python slice `s[a:b]` (with `0 ≤ a ≤ b`): characters `a` to `b-1`,
clamped to the length of the string. -/
def pySlice (s : String) (a b : Nat) : String :=
  ((s.toList.drop a).take (b - a)).asString

/-- Python slice `s[a:]`. -/
def pySliceFrom (s : String) (a : Nat) : String :=
  (s.toList.drop a).asString

/-- First index (from `start`) where `sub` occurs in `cs`, if any. -/
def listFindSub (cs sub : List Char) : Option Nat :=
  match cs with
  | [] => if sub = [] then some 0 else none
  | _ :: rest =>
    if sub.isPrefixOf cs then some 0
    else (listFindSub rest sub).map (· + 1)

/-- Python `s.find(sub)`: first index of `sub` in `s`, or `-1`. -/
def pyFind (s sub : String) : Int :=
  match listFindSub s.toList sub.toList with
  | some i => (i : Int)
  | none => -1

/-- Python `s.find(sub, start)`: first index of `sub` at or after
`start`, or `-1`; a negative `start` counts from the end, clamped at 0. -/
def pyFindFrom (s sub : String) (start : Int) : Int :=
  let len : Int := s.toList.length
  let s0 : Nat := (if start < 0 then max 0 (len + start) else start).toNat
  match listFindSub (s.toList.drop s0) sub.toList with
  | some i => (s0 : Int) + i
  | none => -1

/-- Python `s.startswith(pre)`. -/
def pyStartsWith (s pre : String) : Bool :=
  pre.toList.isPrefixOf s.toList

/-- Python `sub in s` (substring containment). -/
def pyContains (s sub : String) : Bool :=
  (listFindSub s.toList sub.toList).isSome

/-- Python `int(s)`: strip whitespace, optional sign, one or more
decimal digits. -/
def parseInt (s : String) : Option Int :=
  let cs := (pyStrip s).toList
  let core : List Char → Option Nat := fun ds =>
    if ds ≠ [] ∧ ds.all Char.isDigit then
      some (ds.foldl (fun n c => n * 10 + (c.toNat - '0'.toNat)) 0)
    else none
  match cs with
  | '-' :: ds => (core ds).map (fun n => -(n : Int))
  | '+' :: ds => (core ds).map (fun n => (n : Int))
  | ds => (core ds).map (fun n => (n : Int))

/-- Digits to a natural number. -/
def digitsToNat (ds : List Char) : Nat :=
  ds.foldl (fun n c => n * 10 + (c.toNat - '0'.toNat)) 0

/-- An exact decimal value `mant * 10 ^ exp`, the reading of a Fortran-style
numeric token. Equality is only ever used between values parsed from the
same token, so the non-canonical representation is harmless. -/
structure Dec where
  mant : Int
  exp : Int
deriving Repr, DecidableEq

/-- Python `float(s)` on ordinary decimal literals
(`[sign] digits [. digits] [e [sign] digits]`, at least one mantissa
digit), as an exact decimal; `inf`/`nan` spellings are outside the
fragment this engine receives. -/
def parseFloat (s : String) : Option Dec :=
  let cs := (pyStrip s).toList
  let (sign, cs) : Int × List Char :=
    match cs with
    | '-' :: rest => (-1, rest)
    | '+' :: rest => (1, rest)
    | _ => (1, cs)
  let ip := cs.takeWhile Char.isDigit
  let cs := cs.dropWhile Char.isDigit
  let (fp, cs) : List Char × List Char :=
    match cs with
    | '.' :: rest => (rest.takeWhile Char.isDigit, rest.dropWhile Char.isDigit)
    | _ => ([], cs)
  if ip = [] ∧ fp = [] then none
  else
    let mant : Int := sign * ((digitsToNat ip : Int) * 10 ^ fp.length + digitsToNat fp)
    match cs with
    | [] => some ⟨mant, -(fp.length : Int)⟩
    | e :: rest =>
      if e = 'e' ∨ e = 'E' then
        let (esign, ds) : Int × List Char :=
          match rest with
          | '-' :: r => (-1, r)
          | '+' :: r => (1, r)
          | r => (1, r)
        if ds ≠ [] ∧ ds.all Char.isDigit then
          some ⟨mant, esign * (digitsToNat ds : Int) - fp.length⟩
        else none
      else none

/-! ## Record cursor: `MFFileReader` state (`src/moflow/mf/reader.py`) -/

/-- Errors raised by the reader (`IndexError`, `ValueError`,
`KeyError`, `AssertionError`, `NotImplementedError`). -/
inductive Err where
  /-- `IndexError("Unexpected end of file")` from `nextline`. -/
  | eof : Err
  /-- `ValueError` from `conv` ("Cannot cast ... to type ..."). -/
  | conversionError (item : String) : Err
  /-- `ValueError("cannot understand Fortran format: ...")`. -/
  | badFormat (fmtin : String) : Err
  /-- `ValueError(f"expected size {expected}, but found {found}")`:
  the payload size check of `read_array_data`. -/
  | sizeMismatch (expected found : Nat) : Err
  /-- other `ValueError`s with a structural message. -/
  | valueError (msg : String) : Err
  /-- `KeyError` from a unit-registry lookup. -/
  | keyError (nunit : Int) : Err
  /-- failed `assert` statement. -/
  | assertionError : Err
  /-- `NotImplementedError`. -/
  | notImplemented : Err
  /-- `AttributeError("reference to 'nam' required for EXTERNAL array")`. -/
  | attributeError : Err
  /-- a code path outside the modelled fragment (the GMS HDF5 array
  encoding, which needs `h5py` and the file system). -/
  | unsupported (what : String) : Err
  /-- `BytesIO.readline` returns `b''` forever at EOF, so the Python
  collection loop never terminates; divergence is made explicit. -/
  | divergence : Err
deriving Repr, DecidableEq

/-- State of an `MFFileReader`: the pre-loaded lines and the 1-based
current line number (0 = before the first line). -/
structure Reader where
  lines : List String
  lineno : Nat
deriving Repr, DecidableEq

/-- `MFFileReader.nextline` (lines 149-165): increment `lineno`, fetch
`lines[lineno - 1]`; on `IndexError` decrement `lineno` back and raise.
The reader state at raise time is carried in the error. -/
def Reader.nextline (r : Reader) : Except (Err × Reader) (String × Reader) :=
  let lineno' := r.lineno + 1
  match r.lines.get? (lineno' - 1) with
  | some line => .ok (line, { r with lineno := lineno' })
  | none => .error (.eof, { r with lineno := lineno' - 1 })

/-- `MFFileReader.curline` (lines 137-147): the current line, empty
before any read. -/
def Reader.curline (r : Reader) : Except Err String :=
  if r.lineno = 0 then .ok ""
  else
    match r.lines.get? (r.lineno - 1) with
    | some line => .ok line
    | none => .error .eof

instance {ε α : Type} [DecidableEq ε] [DecidableEq α] :
    DecidableEq (Except ε α) := fun a b =>
  match a, b with
  | .ok x, .ok y =>
    if h : x = y then .isTrue (by rw [h])
    else .isFalse (by intro hc; cases hc; exact h rfl)
  | .error x, .error y =>
    if h : x = y then .isTrue (by rw [h])
    else .isFalse (by intro hc; cases hc; exact h rfl)
  | .ok _, .error _ => .isFalse (by intro hc; cases hc)
  | .error _, .ok _ => .isFalse (by intro hc; cases hc)

/-! ## Field tokenizer / converter (`MFFileReader.conv`, `get_items`) -/

/-- The `fmt` codes accepted by `MFFileReader.conv` (lines 171-202):
`'s'` string, `'i'` integer, `'f'` float (`parent._float_type`). -/
inductive Fmt where
  | s | i | f
deriving Repr, DecidableEq

/-- A converted item value. -/
inductive PyVal where
  | str (v : String)
  | int (v : Int)
  | float (v : Dec)
deriving Repr, DecidableEq

/-- `MFFileReader.conv` (lines 171-202): convert one token; a failed
`int`/`float` literal raises `ValueError` ("Cannot cast ..."). -/
def conv (fmt : Fmt) (item : String) : Except Err PyVal :=
  match fmt with
  | .s => .ok (.str item)
  | .i =>
    match parseInt item with
    | some v => .ok (.int v)
    | none => .error (.conversionError item)
  | .f =>
    match parseFloat item with
    | some v => .ok (.float v)
    | none => .error (.conversionError item)

/-- `[self.conv(x, fmt) for x in items]`: the first failing conversion
raises. -/
def convAll (fmt : Fmt) : List String → Except Err (List PyVal)
  | [] => .ok []
  | item :: rest =>
    match conv fmt item, convAll fmt rest with
    | .ok v, .ok vs => .ok (v :: vs)
    | .error e, _ => .error e
    | _, .error e => .error e

/-- The zero-equivalent of each conversion type: `''`, `0`, `0.0`. -/
def zeroVal : Fmt → PyVal
  | .s => .str ""
  | .i => .int 0
  | .f => .float ⟨0, 0⟩

/-- A token-collection loop
(`while len(items) < num_items: items += extract(obj.readline())`), the
shape shared by `get_items` (with `extract = str.split`) and the ASCII
paths of `read_array_data`; structurally over the remaining records.
On success: the tokens and the number of records consumed; on
exhaustion: the number of records consumed before `readline` failed to
produce another. -/
def collectLoop (extract : String → List String) (need : Nat) :
    List String → List String → Except Nat (List String × Nat)
  | rem, acc =>
    if need ≤ acc.length then .ok (acc, 0)
    else
      match rem with
      | [] => .error 0
      | l :: rest =>
        match collectLoop extract need rest (acc ++ extract l) with
        | .ok (toks, k) => .ok (toks, k + 1)
        | .error k => .error (k + 1)

/-- `MFFileReader.get_items` (lines 204-263). With `multiline = false`
(or no count) one record is tokenized, truncated to `num_items` and
padded with the type's zero token `'0'`/`''`; with `multiline = true`
records are pulled until `num_items` tokens are collected (the count must
be positive, by `assert`), and the excess is trimmed. -/
def get_items (r : Reader) (numItems : Option Nat) (fmt : Fmt)
    (multiline : Bool) : Except (Err × Reader) (List PyVal × Reader) :=
  if numItems = none ∨ multiline = false then
    match r.nextline with
    | .error er => .error er
    | .ok (line, r1) =>
      let items0 := splitWs line
      let items := match numItems with
        | some n => if items0.length > n then items0.take n else items0
        | none => items0
      let fillMissing : Nat := match numItems with
        | some n =>
          if multiline = false ∧ items.length < n then n - items.length
          else 0
        | none => 0
      match convAll fmt items with
      | .error e => .error (e, r1)
      | .ok res =>
        if fillMissing = 0 then .ok (res, r1)
        else
          let fillValue := match fmt with | .s => "" | _ => "0"
          match conv fmt fillValue with
          | .error e => .error (e, r1)
          | .ok fv => .ok (res ++ List.replicate fillMissing fv, r1)
  else
    match numItems with
    | none => .error (.assertionError, r)  -- unreachable under the guard
    | some n =>
      if n = 0 then .error (.assertionError, r)  -- `assert num_items > 0`
      else
        match collectLoop splitWs n (r.lines.drop r.lineno) [] with
        | .error k => .error (.eof, { r with lineno := r.lineno + k })
        | .ok (toks, k) =>
          let items := if toks.length > n then toks.take n else toks
          match convAll fmt items with
          | .error e => .error (e, { r with lineno := r.lineno + k })
          | .ok res => .ok (res, { r with lineno := r.lineno + k })

/-- `MFFileReader.read_text` helper (lines 285-306): consume records
while they start with `'#'`, stripping the marker; stop (rewinding one
record) at the first non-comment record; a caught end-of-input simply
stops the loop. Returns the collected text and the number of lines
consumed. -/
def readTextLoop : List String → List String × Nat
  | [] => ([], 0)  -- IndexError from nextline is caught: break
  | line :: rest =>
    if pyStartsWith line "#" then
      let (txt, k) := readTextLoop rest
      (pyStrip (pySliceFrom line 1) :: txt, k + 1)
    else ([], 0)  -- `self.lineno -= 1`: the record is un-read

/-- `MFFileReader.read_text` (lines 285-306): total — it never raises. -/
def read_text (r : Reader) : List String × Reader :=
  let (txt, k) := readTextLoop (r.lines.drop r.lineno)
  (txt, { r with lineno := r.lineno + k })

/-- `MFFileReader.read_options` (lines 308-327): upper-case and split one
record into `Options`; when the parent declares `valid_options`, warn for
each option `opt` with `opt not in self.parent.Options` (the membership
test the source performs); raise `NotImplementedError` when
`process_aux` is set. Returns (options, warned options). -/
def read_options (r : Reader) (validOptions : Option (List String))
    (processAux : Bool) :
    Except (Err × Reader) ((List String × List String) × Reader) :=
  match r.nextline with
  | .error er => .error er
  | .ok (line, r1) =>
    let options := splitWs (pyUpper line)
    let warned := match validOptions with
      | some _ => options.filter (fun opt => ¬ opt ∈ options)
      | none => []
    if processAux then .error (.notImplemented, r1)
    else .ok ((options, warned), r1)

/-! ## Format specs: the `_re_fmtin` regular expression

`\((?P<body>(?P<rep>\d*)(?P<symbol>[IEFG][SN]?)(?P<w>\d+)(\.(?P<d>\d+))?|FREE|BINARY)\)`
applied with `re.search` to the upper-cased format string. -/

/-- A parsed format spec. -/
inductive FmtIn where
  | free
  | binary
  /-- `(<rep><SYMBOL><w>[.<d>])`; `rep` is absent when the digit group is
  empty (the reader then defaults it to 1). -/
  | fortran (rep : Option Nat) (symbol : String) (w : Nat) (d : Option Nat)
deriving Repr, DecidableEq

/-- Split a leading digit run. -/
def takeDigits (cs : List Char) : List Char × List Char :=
  (cs.takeWhile Char.isDigit, cs.dropWhile Char.isDigit)

/-- Match the Fortran-tuple alternative of `_re_fmtin` after the opening
parenthesis. -/
def matchFortran (cs : List Char) : Option FmtIn :=
  let (repDs, cs) := takeDigits cs
  let rep : Option Nat := if repDs = [] then none else some (digitsToNat repDs)
  match cs with
  | [] => none
  | c :: cs =>
    if c = 'I' ∨ c = 'E' ∨ c = 'F' ∨ c = 'G' then
      let (sym, cs) : List Char × List Char :=
        match cs with
        | c2 :: cs2 => if c2 = 'S' ∨ c2 = 'N' then ([c, c2], cs2) else ([c], cs)
        | [] => ([c], [])
      let (wDs, cs) := takeDigits cs
      if wDs = [] then none
      else
        match cs with
        | ')' :: _ => some (.fortran rep sym.asString (digitsToNat wDs) none)
        | '.' :: cs2 =>
          let (dDs, cs3) := takeDigits cs2
          if dDs = [] then none
          else
            match cs3 with
            | ')' :: _ =>
              some (.fortran rep sym.asString (digitsToNat wDs)
                (some (digitsToNat dDs)))
            | _ => none
        | _ => none
    else none

/-- Match `_re_fmtin` at one start position: `(` then the body
alternatives in the regex's order. -/
def matchFmtAt (cs : List Char) : Option FmtIn :=
  match cs with
  | '(' :: rest =>
    match matchFortran rest with
    | some f => some f
    | none =>
      if "FREE)".toList.isPrefixOf rest then some .free
      else if "BINARY)".toList.isPrefixOf rest then some .binary
      else none
  | _ => none

/-- `re.search`: first position (left to right) where the pattern
matches. -/
def searchFmt : List Char → Option FmtIn
  | [] => none
  | c :: rest =>
    match matchFmtAt (c :: rest) with
    | some f => some f
    | none => searchFmt rest

/-- `_re_fmtin.search(fmtin.upper())` of `read_array_data`. -/
def parseFmtin (fmtin : String) : Option FmtIn :=
  searchFmt (pyUpper fmtin).toList

/-! ## Payload decoding: `read_array_data` (lines 376-420) -/

/-- A payload source object `obj`. An `MFFileReader` (`self` or another
reader) has `readline` but no raw `read`; a `BytesIO` buffer (what the
unit registry holds in the tests) has both. The buffer is a byte string
with a current position. -/
inductive Source where
  | text (r : Reader)
  | bytes (data : String) (pos : Nat)
deriving Repr, DecidableEq

/-- `BytesIO.read(n)`: up to `n` bytes from the position. -/
def bytesRead (data : String) (pos n : Nat) : String :=
  ((data.toList.drop pos).take n).asString

/-- Split a byte buffer into `readline` results (each line keeps its
trailing newline, as `BytesIO.readline` does). -/
def bytesLinesAux : List Char → List Char → List String
  | [], cur => if cur = [] then [] else [cur.reverse.asString]
  | c :: rest, cur =>
    if c = '\n' then (cur.reverse ++ ['\n']).asString :: bytesLinesAux rest []
    else bytesLinesAux rest (c :: cur)

/-- The sequence of lines `BytesIO.readline` yields from `pos` on. -/
def bytesLines (data : String) (pos : Nat) : List String :=
  bytesLinesAux (data.toList.drop pos) []

/-- An element of a decoded array: a converted numeric token, or
`itemsize` raw bytes reinterpreted by `np.frombuffer`. -/
inductive ArrElem where
  | num (v : Dec)
  | raw (bytes : String)
deriving Repr, DecidableEq

/-- `np.frombuffer(data, dtype)`: reinterpret the buffer as
`len / itemsize` consecutive `itemsize`-byte elements
(`numpy` guarantees `itemsize ≥ 1`). -/
def chunkBytes (itemsize : Nat) (cs : List Char) : List ArrElem :=
  (List.range (cs.length / itemsize)).map
    (fun i => .raw ((cs.drop (i * itemsize)).take itemsize).asString)

/-- `np.fromiter(items, dtype)`: convert every token with the dtype's
constructor; a token that does not parse raises `ValueError`. -/
def fromIter (numType : String → Option Dec) : List String → Option (List ArrElem)
  | [] => some []
  | t :: rest =>
    match numType t, fromIter numType rest with
    | some v, some vs => some (.num v :: vs)
    | _, _ => none

/-- One record's fixed-width extraction (the `for n in range(rep)` loop):
`rep` consecutive `width`-character slices, each stripped, wholly blank
fields dropped. (The `except IndexError` in the source is dead code:
Python string slicing never raises.) -/
def sliceFields (line : String) (rep width : Nat) : List String :=
  (List.range rep).filterMap (fun n =>
    let item := pyStrip (pySlice line (n * width) (n * width + width))
    if item = "" then none else some item)

/-- `read_array_data(obj, fmtin)` (lines 376-420): decode
`numItems` elements of `itemsize` bytes each from `src`; `numType` is
the dtype's scalar constructor. Returns the flat element list and the
advanced source. A text reader exhausted mid-collection raises
end-of-input; an exhausted `BytesIO` returns empty reads forever, which
in the source is an infinite loop (`Err.divergence`). -/
def readArrayData (numType : String → Option Dec) (fmtin : String)
    (src : Source) (numItems itemsize : Nat) :
    Except Err (List ArrElem × Source) :=
  match parseFmtin fmtin with
  | none => .error (.badFormat fmtin)
  | some .binary =>
    match src with
    | .text _ => .error .notImplemented  -- `MFFileReader` has no `read`
    | .bytes data pos =>
      let dataSize := numItems * itemsize
      let chunk := bytesRead data pos dataSize
      if itemsize = 0 ∨ chunk.toList.length % itemsize ≠ 0 then
        .error (.valueError "buffer size must be a multiple of element size")
      else
        let iar := chunkBytes itemsize chunk.toList
        if iar.length ≠ numItems then .error (.sizeMismatch numItems iar.length)
        else .ok (iar, .bytes data (pos + chunk.toList.length))
  | some fmt =>
    let extract : String → List String :=
      match fmt with
      | .free => splitWs
      | .fortran rep _ w _ =>
        -- `if fmt["rep"]: rep = int(fmt["rep"]) else: rep = 1`
        fun line => sliceFields line (rep.getD 1) w
      | .binary => splitWs  -- unreachable: handled above
    match src with
    | .text r =>
      match collectLoop extract numItems (r.lines.drop r.lineno) [] with
      | .error _ => .error .eof
      | .ok (items, k) =>
        match fromIter numType items with
        | none => .error (.conversionError "np.fromiter")
        | some iar =>
          if iar.length ≠ numItems then .error (.sizeMismatch numItems iar.length)
          else .ok (iar, .text { r with lineno := r.lineno + k })
    | .bytes data pos =>
      match collectLoop extract numItems (bytesLines data pos) [] with
      | .error _ => .error .divergence
      | .ok (items, k) =>
        match fromIter numType items with
        | none => .error (.conversionError "np.fromiter")
        | some iar =>
          if iar.length ≠ numItems then .error (.sizeMismatch numItems iar.length)
          else
            let consumed := (((bytesLines data pos).take k).map
              (fun l => l.toList.length)).sum
            .ok (iar, .bytes data (pos + consumed))

/-! ## Array control line: `get_array` (lines 354-573)

The control phase of `get_array`: read the control line, capture the
`'#'` fallback label, classify the encoding, and either fill the array
(`CONSTANT`, fixed-format `LOCAT=0`) or determine which source and
format spec `read_array_data` will be called with. The payload read and
the elementwise multiplication by the constant are the separate
`read_array_data` phase above. The unit registry is abstracted to the
set of registered unit numbers (the bound `Source` objects play no role
in the control phase). -/

/-- The `'#'` fallback label (lines 369-371): the text after the first
`'#'`, stripped. -/
def hashText (first_line : String) : Option String :=
  if pyContains first_line "#" then
    some (pyStrip (pySliceFrom first_line ((pyFind first_line "#") + 1).toNat))
  else none

/-- Which object the payload is read from. -/
inductive ArraySource where
  | self
  | registry (nunit : Int)
  | file (fname : String)
deriving Repr, DecidableEq

/-- The result of interpreting the control line: either the array is
already complete, or a payload read is pending from a source with a
format string. -/
inductive ControlOutcome where
  | filled (arr : List Dec)
  | payload (src : ArraySource) (fmtin : String)
deriving Repr, DecidableEq

/-- The metadata dictionary `res` built by `get_array`, plus the
outcome. Absent keys are `none`. -/
structure ControlMeta where
  cntrl : Option String := none
  cnstnt : Option String := none
  fmtin : Option String := none
  iprn : Option String := none
  nunit : Option Int := none
  fname : Option String := none
  locat : Option Int := none
  text : Option String := none
  outcome : ControlOutcome
deriving Repr, DecidableEq

/-- The control phase of `get_array` (lines 366-573). `size` is
`ar.size`, `numType` the dtype's scalar constructor
(`np.dtype(dtype).type`), `parentNunit` the package's own unit number,
`nam` the attached unit registry (`none` when `self.parent.nam is
None`). The GMS `HDF5` encoding (lines 483-543) needs `h5py` and the
file system and is not modelled (note: unlike every other encoding, its
label capture at lines 518-521 overwrites an already-captured `'#'`
label; no claim below depends on that branch). -/
def getArrayControl (first_line : String) (size : Nat)
    (numType : String → Option Dec) (parentNunit : Option Int)
    (nam : Option (List Int)) : Except Err ControlMeta :=
  let text0 := hashText first_line
  let dat := splitWs first_line
  match dat with
  | [] => .error (.valueError "list index out of range")  -- `dat[0]`
  | d0 :: drest =>
    let cntrl := pyUpper d0
    if cntrl = "CONSTANT" then
      -- CONSTANT CNSTNT
      match drest with
      | [] => .error (.valueError "expecting to find at least 2 items for CONSTANT")
      | cnstnt :: dtail =>
        let text := if dtail ≠ [] ∧ text0 = none then
            some (pyStrip (pySliceFrom first_line
              ((pyFind first_line cnstnt) + cnstnt.length).toNat))
          else text0
        match numType cnstnt with  -- `ar.fill(cnstnt)`
        | none => .error (.conversionError cnstnt)
        | some v =>
          .ok { cntrl := some cntrl
                cnstnt := some cnstnt
                text := text
                outcome := .filled (List.replicate size v) }
    else if cntrl = "INTERNAL" then
      -- INTERNAL CNSTNT FMTIN [IPRN]
      match drest with
      | cnstnt :: fmtin :: dtail =>
        let text := match dtail with
          | iprnV :: _ :: _ =>  -- `len(dat) > 4`
            if text0 = none then
              some (pyStrip (pySliceFrom first_line
                ((pyFindFrom first_line iprnV (pyFind first_line fmtin))
                  + iprnV.length).toNat))
            else text0
          | _ => text0
        .ok { cntrl := some cntrl
              cnstnt := some cnstnt
              fmtin := some fmtin
              iprn := dtail.head?
              text := text
              outcome := .payload .self fmtin }
      | _ => .error (.valueError "expecting to find at least 3 items for INTERNAL")
    else if cntrl = "EXTERNAL" then
      -- EXTERNAL Nunit CNSTNT FMTIN IPRN
      match drest with
      | nunitS :: cnstnt :: fmtinS :: iprnV :: dtail =>
        match parseInt nunitS with  -- `int(dat[1])`
        | none => .error (.conversionError nunitS)
        | some nunit =>
          let fmtin := pyUpper fmtinS
          let text := if dtail ≠ [] ∧ text0 = none then
              some (pyStrip (pySliceFrom first_line
                ((pyFindFrom first_line iprnV (pyFind first_line fmtin))
                  + iprnV.length).toNat))
            else text0
          match nam with
          | none => .error .attributeError
          | some units =>
            if nunit ∈ units then
              .ok { cntrl := some cntrl
                    nunit := some nunit
                    cnstnt := some cnstnt
                    fmtin := some fmtin
                    iprn := some iprnV
                    text := text
                    outcome := .payload (.registry nunit) fmtin }
            else .error (.keyError nunit)
      | _ => .error (.valueError "expecting to find at least 5 items for EXTERNAL")
    else if cntrl = "OPEN/CLOSE" then
      -- OPEN/CLOSE FNAME CNSTNT FMTIN IPRN
      match drest with
      | fname :: cnstnt :: fmtinS :: iprnV :: dtail =>
        let fmtin := pyUpper fmtinS
        let text := if dtail ≠ [] ∧ text0 = none then
            some (pyStrip (pySliceFrom first_line
              ((pyFindFrom first_line iprnV (pyFind first_line fmtin))
                + iprnV.length).toNat))
          else text0
        .ok { cntrl := some cntrl
              fname := some fname
              cnstnt := some cnstnt
              fmtin := some fmtin
              iprn := some iprnV
              text := text
              outcome := .payload (.file fname) fmtin }
      | _ => .error (.valueError "expecting to find at least 5 items for OPEN/CLOSE")
    else if cntrl = "HDF5" then
      .error (.unsupported "HDF5")
    else if first_line.length > 20 then
      -- FIXED-FORMAT CONTROL LINE: LOCAT CNSTNT FMTIN IPRN
      -- (`del res["cntrl"]`: the control word is not recorded.)
      match parseInt (pySlice first_line 0 10) with
      | none => .error (.valueError "fixed-format control line not understood")
      | some locat =>
        let cnstnt := pyStrip (pySlice first_line 10 20)
        let fmtin := pyUpper (pyStrip (pySlice first_line 20 40))
        let iprn := if first_line.length > 40 then
            some (pyStrip (pySlice first_line 40 50))
          else none
        let text := if first_line.length > 50 ∧ text0 = none then
            some (pyStrip (pySliceFrom first_line 50))
          else text0
        let base : ControlMeta :=
          { locat := some locat
            cnstnt := some cnstnt
            fmtin := some fmtin
            iprn := iprn
            text := text
            outcome := .filled [] }
        if locat = 0 then
          -- all elements are set equal to cnstnt: `ar.fill(cnstnt)`
          match numType cnstnt with
          | none => .error (.conversionError cnstnt)
          | some v => .ok { base with outcome := .filled (List.replicate size v) }
        else
          let nunit : Int := locat.natAbs
          -- `if locat < 0: fmtin = "(BINARY)"`
          let fmtin2 := if locat < 0 then "(BINARY)" else fmtin
          if parentNunit = some nunit ∨ nam.isNone then
            .ok { base with outcome := .payload .self fmtin2 }
          else
            match nam with
            | none => .ok { base with outcome := .payload .self fmtin2 }
            | some units =>
              if nunit ∈ units then
                .ok { base with outcome := .payload (.registry nunit) fmtin2 }
              else .error (.keyError nunit)
    else .error (.valueError "array control line not understood")

/-- The label capture the spec describes for the `CONSTANT` encoding:
the encoding-specific trailing label, when present, takes precedence
over the `'#'`-derived one. Stated from the spec's words, for comparison
with `getArrayControl`. -/
def specConstantText (first_line : String) : Option String :=
  let dat := splitWs first_line
  match dat with
  | _ :: cnstnt :: _ :: _ =>
    some (pyStrip (pySliceFrom first_line
      ((pyFind first_line cnstnt) + cnstnt.length).toNat))
  | _ => hashText first_line

/-! ## Manifest unit registry: `Modflow` (`src/moflow/mf/name.py`)

Only the unit-number registration step of `Modflow.read` is modelled;
the registered objects are abstracted to their package names. -/

/-- The `_nunit` dictionary. -/
abbrev UnitDict := List (Int × String)

/-- Python `dict.__setitem__`: replace an existing binding in place, or
append a new one. This is `Modflow.__setitem__` (name.py lines 75-77)
verbatim — a plain dictionary assignment, which never raises
`KeyError`. -/
def dictSet (d : UnitDict) (key : Int) (val : String) : UnitDict :=
  match d with
  | [] => [(key, val)]
  | (k, v) :: rest =>
    if k = key then (k, val) :: rest else (k, v) :: dictSet rest key val

/-- Python `dict.__getitem__` as used by `Modflow.__getitem__`. -/
def dictGet (d : UnitDict) (key : Int) : Option String :=
  match d with
  | [] => none
  | (k, v) :: rest => if k = key then some v else dictGet rest key

/-- The per-entry unit registration of `Modflow.read` (name.py lines
242-250):

    try:
        self[nunit] = obj
    except KeyError:
        log.warning("%d:nunit: %s already assigned for %r", ...)

`dict.__setitem__` cannot raise `KeyError`, so the except-branch is
unreachable: the assignment is always applied and the warning is never
logged. Returns the registry and the list of unit numbers warned
about. -/
def registerUnits : List (Int × String) → UnitDict → UnitDict × List Int
  | [], d => (d, [])
  | (nunit, obj) :: rest, d => registerUnits rest (dictSet d nunit obj)

/-! ## Boolean token conversion: `conv` (`src/moflow/io/textfile.py`)

The `convert(token, kind)` operation of the spec's Field
Tokenizer/Converter with the boolean kind lives in
`moflow/io/textfile.py` (`MFFileReader.conv` in `mf/reader.py` handles
only `'s'/'i'/'f'`). -/

/-- A value produced by `textfile.conv`; `pyNone` is Python `None`
(returned for a blank item with no default). -/
inductive TfVal where
  | pyNone
  | str (v : String)
  | int (v : Int)
  | float (v : Dec)
  | bool (b : Bool)
deriving Repr, DecidableEq

/-- `_proc_fmt` (textfile.py lines 18-46): the fmt code must match
`^([sifb])(\d*)$`; an explicit width must be positive. -/
def procFmt (fmt : String) : Except Err (Char × Option Nat) :=
  match fmt.toList with
  | [] => .error (.valueError "fmt does not match pattern")
  | c :: ds =>
    if (c = 's' ∨ c = 'i' ∨ c = 'f' ∨ c = 'b') ∧ ds.all Char.isDigit then
      if ds = [] then .ok (c, none)
      else
        let w := digitsToNat ds
        if w ≤ 0 then .error (.valueError "width must be greater than zero")
        else .ok (c, some w)
    else .error (.valueError "fmt does not match pattern")

/-- `conv(item, fmt, on_blank=None)` (textfile.py lines 49-100):
truncate to the width, strip, return `None` on blank, then convert by
code; the boolean code accepts case-insensitive
`{T, TRUE, .TRUE., 1}` / `{F, FALSE, .FALSE., 0}` and raises
`ValueError` otherwise. -/
def tfConv (item : String) (fmt : String) : Except Err TfVal :=
  match procFmt fmt with
  | .error e => .error e
  | .ok (code, width) =>
    let item := match width with
      | some w => if item.toList.length > w then (item.toList.take w).asString
                  else item
      | none => item
    let item := pyStrip item
    if item = "" then .ok .pyNone  -- `on_blank` defaults to `None`
    else if code = 's' then .ok (.str item)
    else if code = 'i' then
      match parseInt item with
      | some v => .ok (.int v)
      | none => .error (.conversionError item)
    else if code = 'f' then
      match parseFloat item with
      | some v => .ok (.float v)
      | none => .error (.conversionError item)
    else if code = 'b' then
      if pyUpper item = "T" ∨ pyUpper item = "TRUE" ∨
          pyUpper item = ".TRUE." ∨ pyUpper item = "1" then .ok (.bool true)
      else if pyUpper item = "F" ∨ pyUpper item = "FALSE" ∨
          pyUpper item = ".FALSE." ∨ pyUpper item = "0" then .ok (.bool false)
      else .error (.conversionError item)
    else .error (.valueError "unknown code")  -- unreachable after `procFmt`

/-! ## Theorems -/

/-- C8. When `nextline` is called with the input already exhausted, it
raises the end-of-input error and the provisional `lineno` increment is
undone: the reader state in the raised error equals the state before the
call, so `curline` still refers to the last successfully read line. -/
theorem nextline_eof_restores (r : Reader) (h : r.lines.length ≤ r.lineno) :
    r.nextline = .error (.eof, r) ∧
    (∀ e s, r.nextline = .error (e, s) → s.curline = r.curline) := by
  have hmain : r.nextline = .error (.eof, r) := by
    unfold Reader.nextline
    have hg : r.lines[r.lineno]? = none := by
      rw [List.getElem?_eq_none_iff]
      omega
    simp only [Nat.add_sub_cancel, List.get?_eq_getElem?, hg]
  refine ⟨hmain, fun e s hs => ?_⟩
  rw [hmain] at hs
  cases hs
  rfl

/-- Witness for C8 at a concrete exhausted reader. -/
theorem nextline_eof_restores_witness :
    (Reader.mk ["x"] 1).lines.length ≤ 1 ∧
    (Reader.mk ["x"] 1).nextline = .error (.eof, Reader.mk ["x"] 1) :=
  ⟨by decide, (nextline_eof_restores ⟨["x"], 1⟩ (by decide)).1⟩

/-- C1. The claim says a later manifest entry reusing a unit number is
flagged and not applied. The code (name.py lines 242-250) guards the
assignment with `try ... except KeyError`, but `Modflow.__setitem__`
(lines 75-77) is a plain `dict` assignment that never raises `KeyError`,
so the second registration silently overwrites the first and no warning
is ever produced: after two entries with unit 11, the registry maps 11
to the second object. -/
theorem duplicate_nunit_overwrites :
    registerUnits [(11, "BAS6"), (11, "DIS")] [] = ([(11, "DIS")], []) ∧
    dictGet (registerUnits [(11, "BAS6"), (11, "DIS")] []).1 11 = some "DIS" ∧
    (some "DIS" : Option String) ≠ some "BAS6" := by
  refine ⟨by decide, by decide, by decide⟩

/-- C6. The claim says tokens outside the declared valid-option set are
flagged as warnings. `read_options` (reader.py lines 308-327) tests
`opt not in self.parent.Options` — membership in the option list being
iterated, not in `valid_options` — so the test is always false and no
token is ever flagged: on record `"FOO BAR"` with valid options
`["XSECTION"]`, the warned list is empty although `FOO` and `BAR` are
not valid options. (The call itself succeeds when `process_aux` is
false.) -/
theorem read_options_never_warns :
    read_options ⟨["FOO BAR\n"], 0⟩ (some ["XSECTION"]) false =
      .ok ((["FOO", "BAR"], []), ⟨["FOO BAR\n"], 1⟩) ∧
    ("FOO" : String) ∉ (["XSECTION"] : List String) := by
  refine ⟨by decide, by decide⟩

/-- C5. The token converter's boolean kind (`conv` in
`moflow/io/textfile.py`; the narrower `MFFileReader.conv` handles only
`'s'/'i'/'f'`): a non-blank token in the case-insensitive set
`{T, TRUE, .TRUE., 1}` converts to true, one in
`{F, FALSE, .FALSE., 0}` to false, and any other non-blank token raises
the conversion error. (`hTok` says the token carries no surrounding
whitespace, as whitespace-split tokens never do; a blank item returns
`None` by the spec's separate blank-token rule.) -/
theorem tfConv_boolean (token : String) (hTok : pyStrip token = token) :
    (pyUpper token = "T" ∨ pyUpper token = "TRUE" ∨
        pyUpper token = ".TRUE." ∨ pyUpper token = "1" →
      tfConv token "b" = .ok (.bool true)) ∧
    (pyUpper token = "F" ∨ pyUpper token = "FALSE" ∨
        pyUpper token = ".FALSE." ∨ pyUpper token = "0" →
      tfConv token "b" = .ok (.bool false)) ∧
    (token ≠ "" →
      ¬(pyUpper token = "T" ∨ pyUpper token = "TRUE" ∨
        pyUpper token = ".TRUE." ∨ pyUpper token = "1") →
      ¬(pyUpper token = "F" ∨ pyUpper token = "FALSE" ∨
        pyUpper token = ".FALSE." ∨ pyUpper token = "0") →
      tfConv token "b" = .error (.conversionError token)) := by
  have hne : ∀ (s : String), pyUpper token = s → s ≠ "" → token ≠ "" := by
    intro s hs hne he
    subst he
    simp [pyUpper] at hs
    exact hne hs.symm
  have hconv : tfConv token "b" =
      (if pyStrip token = "" then .ok .pyNone
       else if pyUpper (pyStrip token) = "T" ∨ pyUpper (pyStrip token) = "TRUE" ∨
          pyUpper (pyStrip token) = ".TRUE." ∨ pyUpper (pyStrip token) = "1" then
          .ok (.bool true)
       else if pyUpper (pyStrip token) = "F" ∨ pyUpper (pyStrip token) = "FALSE" ∨
          pyUpper (pyStrip token) = ".FALSE." ∨ pyUpper (pyStrip token) = "0" then
          .ok (.bool false)
       else .error (.conversionError (pyStrip token))) := rfl
  rw [hTok] at hconv
  refine ⟨?_, ?_, ?_⟩
  · intro h
    have hne' : token ≠ "" := by
      rcases h with h | h | h | h
      · exact hne _ h (by decide)
      · exact hne _ h (by decide)
      · exact hne _ h (by decide)
      · exact hne _ h (by decide)
    rw [hconv, if_neg hne', if_pos h]
  · intro h
    have hne' : token ≠ "" := by
      rcases h with h | h | h | h
      · exact hne _ h (by decide)
      · exact hne _ h (by decide)
      · exact hne _ h (by decide)
      · exact hne _ h (by decide)
    have hnott : ¬(pyUpper token = "T" ∨ pyUpper token = "TRUE" ∨
        pyUpper token = ".TRUE." ∨ pyUpper token = "1") := by
      rcases h with h | h | h | h <;> simp [h]
    rw [hconv, if_neg hne', if_neg hnott, if_pos h]
  · intro hne' hnt hnf
    rw [hconv, if_neg hne', if_neg hnt, if_neg hnf]

/-- Witness for C5: a truthy token, a falsy token, and a rejected one. -/
theorem tfConv_boolean_witness :
    pyStrip ".True." = ".True." ∧
    tfConv ".True." "b" = .ok (.bool true) ∧
    tfConv "0" "b" = .ok (.bool false) ∧
    tfConv "yes" "b" = .error (.conversionError "yes") :=
  ⟨by decide,
   (tfConv_boolean ".True." (by decide)).1 (by decide),
   (tfConv_boolean "0" (by decide)).2.1 (by decide),
   (tfConv_boolean "yes" (by decide)).2.2 (by decide) (by decide) (by decide)⟩

/-- When every remaining record is a comment, the `read_text` loop
consumes them all and strips each. -/
theorem readTextLoop_all (rem : List String)
    (hall : ∀ l ∈ rem, pyStartsWith l "#") :
    readTextLoop rem = (rem.map (fun l => pyStrip (pySliceFrom l 1)), rem.length) := by
  induction rem with
  | nil => rfl
  | cons l rest ih =>
    have hl : pyStartsWith l "#" := hall l (by simp)
    have hrest : ∀ x ∈ rest, pyStartsWith x "#" := fun x hx => hall x (by simp [hx])
    simp [readTextLoop, hl, ih hrest]

/-- C9. Reading leading comments never raises at end of input: when
every remaining record starts with `'#'`, `read_text` consumes them all,
returns the stripped text list, and ends normally with the cursor at the
end of input (the cursor's end-of-input error is caught, not
propagated — `read_text` is a total function). -/
theorem read_text_consumes_trailing_comments (r : Reader)
    (hle : r.lineno ≤ r.lines.length)
    (hall : ∀ l ∈ r.lines.drop r.lineno, pyStartsWith l "#") :
    read_text r =
      ((r.lines.drop r.lineno).map (fun l => pyStrip (pySliceFrom l 1)),
        ⟨r.lines, r.lines.length⟩) := by
  have hlen : r.lineno + (r.lines.drop r.lineno).length = r.lines.length := by
    rw [List.length_drop]
    omega
  unfold read_text
  rw [readTextLoop_all _ hall]
  simp only
  rw [hlen]

/-- Witness for C9: two trailing comment records. -/
theorem read_text_witness :
    (∀ l ∈ (Reader.mk ["# a", "#b"] 0).lines.drop 0, pyStartsWith l "#") ∧
    read_text ⟨["# a", "#b"], 0⟩ = (["a", "b"], ⟨["# a", "#b"], 2⟩) := by
  refine ⟨by decide, ?_⟩
  have h := read_text_consumes_trailing_comments ⟨["# a", "#b"], 0⟩
    (by decide) (by decide)
  rw [h]
  decide

/-- A successful collection loop returns at least `need` tokens. -/
theorem collectLoop_ok_length (extract : String → List String) (need : Nat)
    (rem : List String) :
    ∀ (acc toks : List String) (k : Nat),
      collectLoop extract need rem acc = .ok (toks, k) → need ≤ toks.length := by
  induction rem with
  | nil =>
    intro acc toks k h
    unfold collectLoop at h
    by_cases hc : need ≤ acc.length
    · rw [if_pos hc] at h
      cases h
      exact hc
    · rw [if_neg hc] at h
      cases h
  | cons l rest ih =>
    intro acc toks k h
    unfold collectLoop at h
    by_cases hc : need ≤ acc.length
    · rw [if_pos hc] at h
      cases h
      exact hc
    · rw [if_neg hc] at h
      dsimp only at h
      cases hrec : collectLoop extract need rest (acc ++ extract l) with
      | ok p =>
        rw [hrec] at h
        cases h
        exact ih _ _ _ hrec
      | error k' =>
        rw [hrec] at h
        cases h

/-- Conversion of a token list preserves its length. -/
theorem convAll_length (fmt : Fmt) (items : List String) :
    ∀ res : List PyVal, convAll fmt items = .ok res → res.length = items.length := by
  induction items with
  | nil =>
    intro res h
    unfold convAll at h
    cases h
    rfl
  | cons t rest ih =>
    intro res h
    unfold convAll at h
    cases hc : conv fmt t with
    | error e =>
      rw [hc] at h
      cases hr : convAll fmt rest <;> rw [hr] at h <;> cases h
    | ok v =>
      rw [hc] at h
      cases hr : convAll fmt rest with
      | error e => rw [hr] at h; cases h
      | ok vs =>
        rw [hr] at h
        cases h
        simp [ih vs hr]

/-- C10. `get_items` with `multiline = true` and a positive requested
count returns exactly that many items whenever it returns: a final
record supplying more tokens than needed has its excess trimmed off
(`items = items[:num_items]`) and, the cursor being line-based, the
excess is not left for a later read. -/
theorem get_items_multiline_exact (r r' : Reader) (N : Nat) (fmt : Fmt)
    (res : List PyVal) (h : get_items r (some N) fmt true = .ok (res, r')) :
    res.length = N := by
  unfold get_items at h
  rw [if_neg (by simp)] at h
  dsimp only at h
  by_cases hN : N = 0
  · rw [if_pos hN] at h
    cases h
  · rw [if_neg hN] at h
    cases hcol : collectLoop splitWs N (r.lines.drop r.lineno) [] with
    | error k => rw [hcol] at h; cases h
    | ok p =>
      obtain ⟨toks, k⟩ := p
      rw [hcol] at h
      dsimp only at h
      have hge : N ≤ toks.length := collectLoop_ok_length _ _ _ _ _ _ hcol
      cases hcv : convAll fmt (if toks.length > N then toks.take N else toks) with
      | error e => rw [hcv] at h; cases h
      | ok res' =>
        rw [hcv] at h
        cases h
        have := convAll_length _ _ _ hcv
        rw [this]
        by_cases hgt : toks.length > N
        · rw [if_pos hgt]
          simp
          omega
        · rw [if_neg hgt]
          omega

/-- Witness for C10: the second record supplies one token too many;
exactly 3 items come back and the cursor stands after the second
record. -/
theorem get_items_multiline_exact_witness :
    get_items ⟨["1 2", "3 4 5"], 0⟩ (some 3) .s true =
      .ok ([.str "1", .str "2", .str "3"], ⟨["1 2", "3 4 5"], 2⟩) ∧
    ([PyVal.str "1", .str "2", .str "3"].length = 3) :=
  ⟨by decide,
   get_items_multiline_exact ⟨["1 2", "3 4 5"], 0⟩ ⟨["1 2", "3 4 5"], 2⟩ 3 .s
     [.str "1", .str "2", .str "3"] (by decide)⟩

/-- The padding token `'0'`/`''` converts to the type's
zero-equivalent. -/
theorem conv_zero (fmt : Fmt) :
    conv fmt (match fmt with | .s => "" | _ => "0") = .ok (zeroVal fmt) := by
  cases fmt <;> decide

/-- C4. `get_items` with `multiline = false` and count `N`, on a record
whose (truncated) tokens all convert: the result has exactly `N` items;
tokens beyond `N` are truncated; a shortfall is padded with the type's
zero-equivalent (`''`, `0`, `0.0`) without raising. -/
theorem get_items_single_line_pads (r r1 : Reader) (line : String) (N : Nat)
    (fmt : Fmt) (vals : List PyVal)
    (hnext : r.nextline = .ok (line, r1))
    (hvals : convAll fmt
      (if (splitWs line).length > N then (splitWs line).take N else splitWs line)
      = .ok vals) :
    get_items r (some N) fmt false =
      .ok (vals ++ List.replicate (N - (splitWs line).length) (zeroVal fmt), r1) ∧
    (vals ++ List.replicate (N - (splitWs line).length) (zeroVal fmt)).length = N := by
  have hvlen := convAll_length _ _ _ hvals
  unfold get_items
  rw [if_pos (by simp), hnext]
  dsimp only
  rw [hvals]
  dsimp only
  by_cases hgt : (splitWs line).length > N
  · rw [if_pos hgt] at hvlen
    have hlen : vals.length = N := by
      rw [hvlen, List.length_take]
      omega
    have hz : N - (splitWs line).length = 0 := by omega
    rw [if_pos hgt]
    have hcond : ¬(false = false ∧ (List.take N (splitWs line)).length < N) := by
      rintro ⟨-, hc⟩
      rw [List.length_take] at hc
      omega
    rw [if_neg hcond, if_pos rfl, hz]
    refine ⟨by simp, by simp [hlen]⟩
  · rw [if_neg hgt] at hvlen
    rw [if_neg hgt]
    by_cases hlt : (splitWs line).length < N
    · rw [if_pos (⟨rfl, hlt⟩ : false = false ∧ (splitWs line).length < N)]
      have hfm : ¬ (N - (splitWs line).length = 0) := by omega
      rw [if_neg hfm, conv_zero]
      dsimp only
      refine ⟨rfl, ?_⟩
      simp [hvlen]
      omega
    · have hcond : ¬(false = false ∧ (splitWs line).length < N) := by
        simp [hlt]
      rw [if_neg hcond, if_pos rfl]
      have hz : N - (splitWs line).length = 0 := by omega
      rw [hz]
      refine ⟨by simp, ?_⟩
      simp [hvlen]
      omega

/-- Witness for C4: two integer tokens for a request of four; the
shortfall comes back as zeros. -/
theorem get_items_single_line_pads_witness :
    get_items ⟨["7 8"], 0⟩ (some 4) .i false =
      .ok ([.int 7, .int 8, .int 0, .int 0], ⟨["7 8"], 1⟩) ∧
    ([PyVal.int 7, .int 8, .int 0, .int 0].length = 4) := by
  have h := get_items_single_line_pads ⟨["7 8"], 0⟩ ⟨["7 8"], 1⟩ "7 8" 4 .i
    [.int 7, .int 8] (by decide) (by decide)
  obtain ⟨h1, h2⟩ := h
  constructor
  · rw [h1]
    decide
  · decide

/-- Whenever the shared ASCII finish of `read_array_data` (convert, then
check the collected count) returns, it returns exactly `N` elements. -/
theorem payloadFinish_ok (numType : String → Option Dec) (N : Nat)
    (col : Except Nat (List String × Nat)) (eofErr : Err) (mkSrc : Nat → Source)
    (l : List ArrElem) (s' : Source)
    (h : (match col with
        | .error _ => .error eofErr
        | .ok (items, k) =>
          match fromIter numType items with
          | none => .error (.conversionError "np.fromiter")
          | some iar =>
            if iar.length ≠ N then .error (.sizeMismatch N iar.length)
            else .ok (iar, mkSrc k)) = Except.ok (l, s')) :
    l.length = N := by
  cases col with
  | error k => cases h
  | ok p =>
    obtain ⟨items, k⟩ := p
    dsimp only at h
    cases hfi : fromIter numType items with
    | none => rw [hfi] at h; cases h
    | some iar =>
      rw [hfi] at h
      dsimp only at h
      by_cases hl : iar.length ≠ N
      · rw [if_pos hl] at h; cases h
      · rw [if_neg hl] at h
        cases h
        omega

/-- When the ASCII finish raises the size-mismatch error, it carries the
expected count `N` and a found count different from `N`. -/
theorem payloadFinish_err (numType : String → Option Dec) (N : Nat)
    (col : Except Nat (List String × Nat)) (eofErr : Err) (mkSrc : Nat → Source)
    (e f : Nat)
    (heof : ∀ a b, eofErr ≠ .sizeMismatch a b)
    (h : (match col with
        | .error _ => .error eofErr
        | .ok (items, k) =>
          match fromIter numType items with
          | none => .error (.conversionError "np.fromiter")
          | some iar =>
            if iar.length ≠ N then .error (.sizeMismatch N iar.length)
            else .ok (iar, mkSrc k)) = Except.error (Err.sizeMismatch e f)) :
    e = N ∧ f ≠ N := by
  cases col with
  | error k =>
    dsimp only at h
    injection h with h1
    exact absurd h1 (heof e f)
  | ok p =>
    obtain ⟨items, k⟩ := p
    dsimp only at h
    cases hfi : fromIter numType items with
    | none =>
      rw [hfi] at h
      injection h with h1
      cases h1
    | some iar =>
      rw [hfi] at h
      dsimp only at h
      by_cases hl : iar.length ≠ N
      · rw [if_pos hl] at h
        injection h with h1
        injection h1 with h2 h3
        subst h2
        subst h3
        exact ⟨rfl, hl⟩
      · rw [if_neg hl] at h
        cases h

/-- C2. For every format spec, source and target count `N`, the payload
decoder `read_array_data` never returns an array of a size other than
`N`, and the size-mismatch error it raises carries the expected count
`N` and the differing found count. -/
theorem readArrayData_count (numType : String → Option Dec) (fmtin : String)
    (src : Source) (N isz : Nat) :
    (∀ l s', readArrayData numType fmtin src N isz = .ok (l, s') → l.length = N) ∧
    (∀ e f, readArrayData numType fmtin src N isz = .error (.sizeMismatch e f) →
      e = N ∧ f ≠ N) := by
  constructor
  · intro l s' h
    unfold readArrayData at h
    cases hp : parseFmtin fmtin with
    | none => rw [hp] at h; cases h
    | some fmt =>
      rw [hp] at h
      cases fmt with
      | binary =>
        cases src with
        | text r => cases h
        | bytes data pos =>
          dsimp only at h
          by_cases hz : isz = 0 ∨ ¬ (bytesRead data pos (N * isz)).toList.length % isz = 0
          · rw [if_pos hz] at h; cases h
          · rw [if_neg hz] at h
            by_cases hl : (chunkBytes isz (bytesRead data pos (N * isz)).toList).length ≠ N
            · rw [if_pos hl] at h; cases h
            · rw [if_neg hl] at h
              cases h
              omega
      | free =>
        cases src with
        | text r => exact payloadFinish_ok numType N _ _ _ l s' h
        | bytes data pos => exact payloadFinish_ok numType N _ _ _ l s' h
      | fortran rep sym w d =>
        cases src with
        | text r => exact payloadFinish_ok numType N _ _ _ l s' h
        | bytes data pos => exact payloadFinish_ok numType N _ _ _ l s' h
  · intro e f h
    unfold readArrayData at h
    cases hp : parseFmtin fmtin with
    | none => rw [hp] at h; injection h with h1; cases h1
    | some fmt =>
      rw [hp] at h
      cases fmt with
      | binary =>
        cases src with
        | text r => injection h with h1; cases h1
        | bytes data pos =>
          dsimp only at h
          by_cases hz : isz = 0 ∨ ¬ (bytesRead data pos (N * isz)).toList.length % isz = 0
          · rw [if_pos hz] at h; injection h with h1; cases h1
          · rw [if_neg hz] at h
            by_cases hl : (chunkBytes isz (bytesRead data pos (N * isz)).toList).length ≠ N
            · rw [if_pos hl] at h
              injection h with h1
              injection h1 with h2 h3
              subst h2
              subst h3
              exact ⟨rfl, hl⟩
            · rw [if_neg hl] at h; cases h
      | free =>
        cases src with
        | text r => exact payloadFinish_err numType N _ _ _ e f (by intro a b hc; cases hc) h
        | bytes data pos => exact payloadFinish_err numType N _ _ _ e f (by intro a b hc; cases hc) h
      | fortran rep sym w d =>
        cases src with
        | text r => exact payloadFinish_err numType N _ _ _ e f (by intro a b hc; cases hc) h
        | bytes data pos => exact payloadFinish_err numType N _ _ _ e f (by intro a b hc; cases hc) h

/-- Witness for C2: a FREE payload of exactly 3 tokens returns 3
elements; one of 4 tokens for a request of 3 raises
`sizeMismatch 3 4`. -/
theorem readArrayData_count_witness :
    readArrayData parseFloat "(FREE)" (Source.text (Reader.mk ["1 2 3"] 0)) 3 4 =
      Except.ok ([ArrElem.num ⟨1, 0⟩, ArrElem.num ⟨2, 0⟩, ArrElem.num ⟨3, 0⟩],
        Source.text (Reader.mk ["1 2 3"] 1)) ∧
    ([ArrElem.num ⟨1, 0⟩, ArrElem.num ⟨2, 0⟩, ArrElem.num ⟨3, 0⟩].length = 3) ∧
    readArrayData parseFloat "(FREE)" (Source.text (Reader.mk ["1 2 3 4"] 0)) 3 4 =
      Except.error (.sizeMismatch 3 4) ∧
    (3 = 3 ∧ 4 ≠ 3) := by
  refine ⟨by decide, ?_, by decide, ?_⟩
  · exact (readArrayData_count parseFloat "(FREE)"
      (Source.text (Reader.mk ["1 2 3"] 0)) 3 4).1
      [ArrElem.num ⟨1, 0⟩, ArrElem.num ⟨2, 0⟩, ArrElem.num ⟨3, 0⟩]
      (Source.text (Reader.mk ["1 2 3"] 1)) (by decide)
  · exact (readArrayData_count parseFloat "(FREE)"
      (Source.text (Reader.mk ["1 2 3 4"] 0)) 3 4).2 3 4 (by decide)


/-- C7. Counterexample to "the encoding-specific label overrides the
'#'-derived one": on `CONSTANT 5.7 mylabel # note` the code keeps the
`'#'`-derived label `"note"` (the `"text" not in res` guard skips the
encoding-specific capture), while the claimed override semantics
(`specConstantText`) would give `"mylabel # note"`. -/
theorem constant_hash_label_cex :
    (getArrayControl "CONSTANT 5.7 mylabel # note" 4 parseFloat none none).toOption.map
        (fun m => m.text) = some (some "note") ∧
    specConstantText "CONSTANT 5.7 mylabel # note" = some "mylabel # note" ∧
    (some "note" : Option String) ≠ some "mylabel # note" := by
  refine ⟨by decide, by decide, by decide⟩

/-- C7 (amended). For every control line containing `'#'` (and not
using the unmodelled HDF5 encoding), the `'#'`-derived label takes
precedence: every successful control-line interpretation returns it as
the label, the encoding-specific trailing-label capture being skipped
when a `'#'` label is present. -/
theorem hash_label_takes_precedence (first_line : String) (size : Nat)
    (numType : String → Option Dec) (parentNunit : Option Int)
    (nam : Option (List Int)) (m : ControlMeta)
    (hHash : pyContains first_line "#" = true)
    (hNotH5 : ∀ d0 rest, splitWs first_line = d0 :: rest → pyUpper d0 ≠ "HDF5")
    (hOk : getArrayControl first_line size numType parentNunit nam = .ok m) :
    m.text = hashText first_line := by
  obtain ⟨t0, ht0⟩ : ∃ t, hashText first_line = some t := by
    simp [hashText, hHash]
  rw [ht0]
  unfold getArrayControl at hOk
  rw [ht0] at hOk
  dsimp only at hOk
  cases hdat : splitWs first_line with
  | nil =>
    rw [hdat] at hOk
    cases hOk
  | cons d0 drest =>
    rw [hdat] at hOk
    dsimp only at hOk
    by_cases h1 : pyUpper d0 = "CONSTANT"
    · rw [if_pos h1] at hOk
      cases drest with
      | nil => cases hOk
      | cons cnstnt dtail =>
        dsimp only at hOk
        rw [if_neg (fun h => Option.noConfusion h.2)] at hOk
        cases hnum : numType cnstnt with
        | none => rw [hnum] at hOk; cases hOk
        | some v =>
          rw [hnum] at hOk
          cases hOk
          rfl
    · rw [if_neg h1] at hOk
      by_cases h2 : pyUpper d0 = "INTERNAL"
      · rw [if_pos h2] at hOk
        rcases drest with _ | ⟨cnstnt, _ | ⟨fmtin, dtail⟩⟩
        · cases hOk
        · cases hOk
        · dsimp only at hOk
          rcases dtail with _ | ⟨iprnV, _ | ⟨x2, drest2⟩⟩
          · cases hOk
            rfl
          · cases hOk
            rfl
          · dsimp only at hOk
            rw [if_neg (fun h => Option.noConfusion h)] at hOk
            cases hOk
            rfl
      · rw [if_neg h2] at hOk
        by_cases h3 : pyUpper d0 = "EXTERNAL"
        · rw [if_pos h3] at hOk
          rcases drest with _ | ⟨nunitS, _ | ⟨cnstnt, _ | ⟨fmtinS, _ | ⟨iprnV, dtail⟩⟩⟩⟩
          · cases hOk
          · cases hOk
          · cases hOk
          · cases hOk
          · dsimp only at hOk
            cases hpi : parseInt nunitS with
            | none => rw [hpi] at hOk; cases hOk
            | some nunit =>
              rw [hpi] at hOk
              dsimp only at hOk
              rw [if_neg (fun h => Option.noConfusion h.2)] at hOk
              cases nam with
              | none => cases hOk
              | some units =>
                dsimp only at hOk
                by_cases hmem : nunit ∈ units
                · rw [if_pos hmem] at hOk
                  cases hOk
                  rfl
                · rw [if_neg hmem] at hOk
                  cases hOk
        · rw [if_neg h3] at hOk
          by_cases h4 : pyUpper d0 = "OPEN/CLOSE"
          · rw [if_pos h4] at hOk
            rcases drest with _ | ⟨fname, _ | ⟨cnstnt, _ | ⟨fmtinS, _ | ⟨iprnV, dtail⟩⟩⟩⟩
            · cases hOk
            · cases hOk
            · cases hOk
            · cases hOk
            · dsimp only at hOk
              rw [if_neg (fun h => Option.noConfusion h.2)] at hOk
              cases hOk
              rfl
          · rw [if_neg h4] at hOk
            rw [if_neg (hNotH5 d0 drest hdat)] at hOk
            by_cases hlen : first_line.length > 20
            · rw [if_pos hlen] at hOk
              cases hpi : parseInt (pySlice first_line 0 10) with
              | none => rw [hpi] at hOk; cases hOk
              | some locat =>
                rw [hpi] at hOk
                dsimp only at hOk
                by_cases hl0 : locat = 0
                · rw [if_pos hl0] at hOk
                  cases hnum : numType (pyStrip (pySlice first_line 10 20)) with
                  | none => rw [hnum] at hOk; cases hOk
                  | some v =>
                    rw [hnum] at hOk
                    cases hOk
                    rw [if_neg (show ¬(first_line.length > 50 ∧
                      (some t0 : Option String) = none) from fun h => Option.noConfusion h.2)]
                · rw [if_neg hl0] at hOk
                  try dsimp only at hOk
                  by_cases hsrc : parentNunit = some (locat.natAbs : Int) ∨ nam.isNone = true
                  · rw [if_pos hsrc] at hOk
                    cases hOk
                    rw [if_neg (show ¬(first_line.length > 50 ∧
                      (some t0 : Option String) = none) from fun h => Option.noConfusion h.2)]
                  · rw [if_neg hsrc] at hOk
                    cases nam with
                    | none =>
                      cases hOk
                      rw [if_neg (show ¬(first_line.length > 50 ∧
                        (some t0 : Option String) = none) from fun h => Option.noConfusion h.2)]
                    | some units =>
                      dsimp only at hOk
                      by_cases hmem : (locat.natAbs : Int) ∈ units
                      · rw [if_pos hmem] at hOk
                        cases hOk
                        rw [if_neg (show ¬(first_line.length > 50 ∧
                          (some t0 : Option String) = none) from fun h => Option.noConfusion h.2)]
                      · rw [if_neg hmem] at hOk
                        cases hOk
            · rw [if_neg hlen] at hOk
              cases hOk

/-- Witness for the amended C7 at the counterexample's own line. -/
theorem hash_label_takes_precedence_witness :
    pyContains "CONSTANT 5.7 mylabel # note" "#" = true ∧
    (ControlMeta.mk (some "CONSTANT") (some "5.7") none none none none none
        (some "note") (.filled [⟨57, -1⟩, ⟨57, -1⟩])).text =
      hashText "CONSTANT 5.7 mylabel # note" := by
  refine ⟨by decide, ?_⟩
  refine hash_label_takes_precedence "CONSTANT 5.7 mylabel # note" 2 parseFloat
    none none _ (by decide) ?_ (by decide)
  intro d0 rest h
  rw [show splitWs "CONSTANT 5.7 mylabel # note" =
    ["CONSTANT", "5.7", "mylabel", "#", "note"] from by decide] at h
  injection h with h1 h2
  subst h1
  decide


/-- C3. Fixed-format (keyword-less) control lines longer than 20
characters: with column-parsed `LOCAT = 0` the array is filled with the
parsed constant and no payload is read (the outcome is already
`filled`); with `LOCAT ≠ 0` the payload is read from the current source
when `abs(LOCAT)` equals the package's own unit number or no unit
registry is attached, and otherwise from the registry entry for
`abs(LOCAT)`; and with `LOCAT < 0` the payload format is forced to
`"(BINARY)"` (which parses to the BINARY spec) regardless of the parsed
format columns. -/
theorem fixed_format_control (first_line : String) (size : Nat)
    (numType : String → Option Dec) (parentNunit : Option Int)
    (nam : Option (List Int)) (d0 : String) (drest : List String) (locat : Int)
    (hdat : splitWs first_line = d0 :: drest)
    (hkw : pyUpper d0 ≠ "CONSTANT" ∧ pyUpper d0 ≠ "INTERNAL" ∧
      pyUpper d0 ≠ "EXTERNAL" ∧ pyUpper d0 ≠ "OPEN/CLOSE" ∧ pyUpper d0 ≠ "HDF5")
    (hlen : first_line.length > 20)
    (hloc : parseInt (pySlice first_line 0 10) = some locat) :
    (locat = 0 →
      ∀ m, getArrayControl first_line size numType parentNunit nam = .ok m →
      ∀ v, numType (pyStrip (pySlice first_line 10 20)) = some v →
        m.outcome = .filled (List.replicate size v) ∧
        (∀ x ∈ List.replicate size v, x = v)) ∧
    (locat ≠ 0 →
      ∀ m, getArrayControl first_line size numType parentNunit nam = .ok m →
      ∃ fspec, m.outcome = .payload
          (if parentNunit = some (locat.natAbs : Int) ∨ nam.isNone = true
            then .self else .registry (locat.natAbs : Int)) fspec ∧
        (locat < 0 → fspec = "(BINARY)" ∧ parseFmtin "(BINARY)" = some .binary) ∧
        (0 < locat → fspec = pyUpper (pyStrip (pySlice first_line 20 40)))) := by
  obtain ⟨hk1, hk2, hk3, hk4, hk5⟩ := hkw
  have hred : getArrayControl first_line size numType parentNunit nam =
      (let text0 := hashText first_line
       let cnstnt := pyStrip (pySlice first_line 10 20)
       let fmtin := pyUpper (pyStrip (pySlice first_line 20 40))
       let iprn := if first_line.length > 40 then
           some (pyStrip (pySlice first_line 40 50))
         else none
       let text := if first_line.length > 50 ∧ text0 = none then
           some (pyStrip (pySliceFrom first_line 50))
         else text0
       let base : ControlMeta :=
         { locat := some locat
           cnstnt := some cnstnt
           fmtin := some fmtin
           iprn := iprn
           text := text
           outcome := .filled [] }
       if locat = 0 then
         match numType cnstnt with
         | none => .error (.conversionError cnstnt)
         | some v => .ok { base with outcome := .filled (List.replicate size v) }
       else
         let nunit : Int := locat.natAbs
         let fmtin2 := if locat < 0 then "(BINARY)" else fmtin
         if parentNunit = some nunit ∨ nam.isNone then
           .ok { base with outcome := .payload .self fmtin2 }
         else
           match nam with
           | none => .ok { base with outcome := .payload .self fmtin2 }
           | some units =>
             if nunit ∈ units then
               .ok { base with outcome := .payload (.registry nunit) fmtin2 }
             else .error (.keyError nunit)) := by
    unfold getArrayControl
    rw [hdat]
    dsimp only
    rw [if_neg hk1, if_neg hk2, if_neg hk3, if_neg hk4, if_neg hk5,
      if_pos hlen, hloc]
  constructor
  · intro hl0 m hOk v hv
    rw [hred] at hOk
    dsimp only at hOk
    rw [if_pos hl0, hv] at hOk
    cases hOk
    refine ⟨rfl, ?_⟩
    intro x hx
    exact List.eq_of_mem_replicate hx
  · intro hl m hOk
    rw [hred] at hOk
    dsimp only at hOk
    rw [if_neg hl] at hOk
    by_cases hsrc : parentNunit = some (locat.natAbs : Int) ∨ nam.isNone = true
    · rw [if_pos hsrc] at hOk
      cases hOk
      refine ⟨if locat < 0 then "(BINARY)"
        else pyUpper (pyStrip (pySlice first_line 20 40)), ?_, ?_, ?_⟩
      · rw [if_pos hsrc]
      · intro hneg
        rw [if_pos hneg]
        exact ⟨rfl, by decide⟩
      · intro hpos
        rw [if_neg (by omega : ¬ locat < 0)]
    · rw [if_neg hsrc] at hOk
      cases hnam : nam with
      | none =>
        exact absurd (Or.inr (by rw [hnam]; rfl)) hsrc
      | some units =>
        rw [hnam] at hOk hsrc
        dsimp only at hOk
        by_cases hmem : (locat.natAbs : Int) ∈ units
        · rw [if_pos hmem] at hOk
          cases hOk
          refine ⟨if locat < 0 then "(BINARY)"
            else pyUpper (pyStrip (pySlice first_line 20 40)), ?_, ?_, ?_⟩
          · rw [if_neg hsrc]
          · intro hneg
            rw [if_pos hneg]
            exact ⟨rfl, by decide⟩
          · intro hpos
            rw [if_neg (by omega : ¬ locat < 0)]
        · rw [if_neg hmem] at hOk
          cases hOk

/-- Witness for C3: a `LOCAT = 0` line fills with the constant `6.`;
a `LOCAT = -17` line with own unit 11 and registry `{17}` reads BINARY
from registry entry 17. -/
theorem fixed_format_control_witness :
    ((ControlMeta.mk none (some "6.") (some "(15F4.0)") none none none
        (some 0) none (.filled [⟨6, 0⟩, ⟨6, 0⟩, ⟨6, 0⟩])).outcome =
      ControlOutcome.filled (List.replicate 3 (⟨6, 0⟩ : Dec)) ∧
      (∀ x ∈ List.replicate 3 (⟨6, 0⟩ : Dec), x = (⟨6, 0⟩ : Dec))) ∧
    (∃ fspec, (ControlMeta.mk none (some "1.") (some "X") none none none
        (some (-17)) none (.payload (.registry 17) "(BINARY)")).outcome =
      ControlOutcome.payload
        (if (some 11 : Option Int) = some (((-17 : Int).natAbs : Int)) ∨
            (some ([17] : List Int)).isNone = true
          then ArraySource.self else ArraySource.registry (((-17 : Int).natAbs : Int)))
        fspec ∧
      ((-17 : Int) < 0 → fspec = "(BINARY)" ∧ parseFmtin "(BINARY)" = some .binary) ∧
      ((0 : Int) < -17 →
        fspec = pyUpper (pyStrip (pySlice "       -17        1.x" 20 40)))) :=
  ⟨(fixed_format_control "         0        6. (15f4.0)" 3 parseFloat none none
      "0" ["6.", "(15f4.0)"] 0 (by decide) (by decide) (by decide) (by decide)).1
      rfl
      (ControlMeta.mk none (some "6.") (some "(15F4.0)") none none none
        (some 0) none (.filled [⟨6, 0⟩, ⟨6, 0⟩, ⟨6, 0⟩]))
      (by decide) ⟨6, 0⟩ (by decide),
   (fixed_format_control "       -17        1.x" 3 parseFloat (some 11) (some [17])
      "-17" ["1.x"] (-17) (by decide) (by decide) (by decide) (by decide)).2
      (by decide)
      (ControlMeta.mk none (some "1.") (some "X") none none none
        (some (-17)) none (.payload (.registry 17) "(BINARY)"))
      (by decide)⟩

end Moflow
